import Mathlib

/-!
Shallow embedding of the run-orchestration and metrics core of the
hot-dog-or-not benchmark backend, translated from
`backend/services/metrics.py`, `backend/services/test_runner.py`,
`backend/services/rate_limiter.py` and `backend/models.py`, together
with theorems settling the specification claims about it.

Machine floats of the source are embedded as exact rationals (and, for
the Wilson interval which needs a square root, as reals).  Python's
`round(x, n)` rounds half to even; Mathlib's `round` rounds half up.
No value appearing in this development sits at a rounding tie, so the
difference is never exercised.
-/

namespace HotDog

/-- Python `round(x, 4)` over the exact rational value. -/
def round4 (x : ℚ) : ℚ := (round (x * 10000) : ℚ) / 10000

/-- Python `round(x, 1)` over the exact rational value. -/
def round1 (x : ℚ) : ℚ := (round (x * 10) : ℚ) / 10

/-- The fields of `Prediction` (backend/models.py) that the core reads. -/
structure Prediction where
  image_path : String
  split : String
  category : String
  filename : String
  raw_response : String
  reasoning : String := ""
  parsed : String
  correct : Bool
  latency_ms : ℚ
deriving Repr, DecidableEq

/-- The `Metrics` pydantic model (backend/models.py). -/
structure Metrics where
  accuracy : ℚ
  precision : ℚ
  recall' : ℚ
  f1 : ℚ
  true_positives : ℕ
  true_negatives : ℕ
  false_positives : ℕ
  false_negatives : ℕ
  total : ℕ
  errors : ℕ
deriving Repr, DecidableEq

/-- The five counters accumulated by the loop of `compute_metrics`
(backend/services/metrics.py, lines 86-103). -/
structure Conf where
  tp : ℕ := 0
  tn : ℕ := 0
  fp : ℕ := 0
  fn : ℕ := 0
  errors : ℕ := 0
deriving Repr, DecidableEq

/-- One iteration of the `for p in predictions` loop of `compute_metrics`:
an `error` verdict is tallied separately; otherwise the prediction falls
into one cell of the confusion matrix, with `predicted_hot_dog` true
exactly when the parsed verdict is the string `yes`. -/
def confStep (c : Conf) (p : Prediction) : Conf :=
  if p.parsed = "error" then { c with errors := c.errors + 1 }
  else
    let is_hot_dog := p.category = "hot_dog"
    let predicted_hot_dog := p.parsed = "yes"
    if is_hot_dog ∧ predicted_hot_dog then { c with tp := c.tp + 1 }
    else if ¬ is_hot_dog ∧ ¬ predicted_hot_dog then { c with tn := c.tn + 1 }
    else if ¬ is_hot_dog ∧ predicted_hot_dog then { c with fp := c.fp + 1 }
    else { c with fn := c.fn + 1 }

/-- The confusion counts of a prediction list (the whole loop). -/
def confusion (ps : List Prediction) : Conf := ps.foldl confStep {}

/-- Translation of `compute_metrics` (backend/services/metrics.py, lines 80-126). -/
def compute_metrics (ps : List Prediction) : Metrics :=
  let c := confusion ps
  let total := c.tp + c.tn + c.fp + c.fn
  let accuracy : ℚ := if 0 < total then ((c.tp : ℚ) + (c.tn : ℚ)) / (total : ℚ) else 0
  let precision : ℚ := if 0 < c.tp + c.fp then (c.tp : ℚ) / ((c.tp : ℚ) + (c.fp : ℚ)) else 0
  let recall' : ℚ := if 0 < c.tp + c.fn then (c.tp : ℚ) / ((c.tp : ℚ) + (c.fn : ℚ)) else 0
  let f1 : ℚ := if 0 < precision + recall' then 2 * precision * recall' / (precision + recall') else 0
  { accuracy := round4 accuracy
    precision := round4 precision
    recall' := round4 recall'
    f1 := round4 f1
    true_positives := c.tp
    true_negatives := c.tn
    false_positives := c.fp
    false_negatives := c.fn
    total := total + c.errors
    errors := c.errors }

/-- The latency sample selected by `compute_enhanced_metrics`
(backend/services/metrics.py, line 59): the latencies of every
prediction whose parsed verdict is not `error`. -/
def latencySample (ps : List Prediction) : List ℚ :=
  (ps.filter (fun p => p.parsed != "error")).map Prediction.latency_ms

/-- The concrete prediction list of the metrics-correctness property in
the specification: hot_dog/yes, hot_dog/no, not_hot_dog/no,
not_hot_dog/yes, hot_dog/error. -/
def examplePredictions : List Prediction :=
  [ { image_path := "test/hot_dog/a.jpg", split := "test", category := "hot_dog",
      filename := "a.jpg", raw_response := "yes", parsed := "yes", correct := true,
      latency_ms := 100 },
    { image_path := "test/hot_dog/b.jpg", split := "test", category := "hot_dog",
      filename := "b.jpg", raw_response := "no", parsed := "no", correct := false,
      latency_ms := 100 },
    { image_path := "test/not_hot_dog/c.jpg", split := "test", category := "not_hot_dog",
      filename := "c.jpg", raw_response := "no", parsed := "no", correct := true,
      latency_ms := 100 },
    { image_path := "test/not_hot_dog/d.jpg", split := "test", category := "not_hot_dog",
      filename := "d.jpg", raw_response := "yes", parsed := "yes", correct := false,
      latency_ms := 100 },
    { image_path := "test/hot_dog/e.jpg", split := "test", category := "hot_dog",
      filename := "e.jpg", raw_response := "boom", parsed := "error", correct := false,
      latency_ms := 0 } ]

/-- A prediction with the non-canonical parsed verdict `maybe`. -/
def maybePrediction : Prediction :=
  { image_path := "test/hot_dog/m.jpg", split := "test", category := "hot_dog",
    filename := "m.jpg", raw_response := "maybe", parsed := "maybe", correct := false,
    latency_ms := 250 }

/-- Python `round(x, 4)` over the reals. -/
noncomputable def round4R (x : ℝ) : ℝ := (round (x * 10000) : ℝ) / 10000

/-- Translation of `wilson_ci` (backend/services/metrics.py, lines 9-19): the Wilson
score confidence interval for `successes` out of `total`, with the
lower endpoint clamped below by 0, the upper clamped above by 1, and
both rounded to four decimals.  The source defaults `z` to 1.96;
callers in this development pass it explicitly. -/
noncomputable def wilson_ci (successes total : ℕ) (z : ℝ) : ℝ × ℝ :=
  if total = 0 then (0, 0)
  else
    let p : ℝ := (successes : ℝ) / (total : ℝ)
    let denom : ℝ := 1 + z * z / (total : ℝ)
    let centre : ℝ := p + z * z / (2 * (total : ℝ))
    let spread : ℝ := z * Real.sqrt ((p * (1 - p) + z * z / (4 * (total : ℝ))) / (total : ℝ))
    (round4R (max 0 ((centre - spread) / denom)), round4R (min 1 ((centre + spread) / denom)))

/-- One row of the frozen image queue handed to the executor: split,
category and filename (from which the record key is built) plus the
filesystem path passed to the gateway. -/
structure Img where
  split : String
  category : String
  filename : String
  path : String
deriving Repr, DecidableEq

/-- The composite record key `split/category/filename` built at line
238 of backend/services/test_runner.py. -/
def runKey (img : Img) : String :=
  img.split ++ "/" ++ img.category ++ "/" ++ img.filename

/-- The `RunStatus` enumeration (backend/models.py). -/
inductive RunStatus
  | pending
  | running
  | completed
  | cancelled
  | failed
deriving Repr, DecidableEq

/-- A status is terminal when it is completed, cancelled or failed. -/
def RunStatus.isTerminal : RunStatus → Bool
  | .completed => true
  | .cancelled => true
  | .failed => true
  | _ => false

/-- The status-and-counters part of `RunMeta` (backend/models.py,
lines 48-61). -/
structure RunMeta where
  status : RunStatus
  total_images : ℕ
  processed : ℕ := 0
  correct : ℕ := 0
  errors : ℕ := 0
deriving Repr, DecidableEq

/-- The run snapshot created by `start_run` (test_runner.py, lines
136-145): status pending and counters zero, with the total set to the
length of the frozen image queue. -/
def initMeta (images : List Img) : RunMeta :=
  { status := RunStatus.pending, total_images := images.length }

/-- The observable behaviour of the rate-limited classifier-gateway
call for one image: either raw text, reasoning text and latency from a
completed call, or the message of the exception the call raised. -/
inductive Outcome
  | success (raw reasoning : String) (latency : ℚ)
  | failure (msg : String)
deriving Repr, DecidableEq

/-- The reasoning-extraction fallback of the executor (test_runner.py,
lines 252-261): when the gateway returned no separate reasoning tokens
and the raw response is multi-line with a bare yes/no on its final
line, the preceding lines become the reasoning; a multi-line response
without such a final line is kept whole as the reasoning. -/
def extractReasoning (reasoning raw : String) : String :=
  if reasoning = "" ∧ ¬ raw = "" then
    let lines := raw.trim.splitOn "\n"
    if 1 < lines.length then
      let last := (lines.getLastD "").trim.toLower
      if last = "yes" ∨ last = "no" ∨ last = "yes." ∨ last = "no." then
        (String.intercalate "\n" lines.dropLast).trim
      else raw.trim
    else reasoning
  else reasoning

/-- The executor's observable result: the final run snapshot, the
final content of the run log, and the keys of the images for which a
classifier call was actually issued. -/
structure ExecResult where
  meta : RunMeta
  log : List Prediction
  calls : List String
deriving Repr, DecidableEq

/-- The per-image loop of `_run_benchmark` (test_runner.py, lines
232-308) on the executions in which no run-level exception strikes.
`cancel i` is the value of the run's cancellation flag observed at the
top of iteration `i`; `outcome img` is what the gateway call for `img`
does; `parse` is the external `parse_response`; `P` is the list of
image keys found in the run log at start-up (lines 225-230).  Exactly
as in the source, the cancellation flag is checked first; then an
already-recorded image is counted as processed and skipped with no
call; otherwise the call is issued and a scored record (or, on an
exception, an error record with the message as raw text and zero
latency) is appended, the counters are bumped, and the loop continues;
when the queue is exhausted a still-running run is marked completed. -/
def benchLoop (cancel : ℕ → Bool) (outcome : Img → Outcome) (parse : String → String)
    (P : List String) :
    List Img → ℕ → RunMeta → List Prediction → List String → ExecResult
  | [], _, meta, log, calls =>
      ⟨if meta.status = RunStatus.running then { meta with status := RunStatus.completed }
        else meta, log, calls⟩
  | img :: rest, i, meta, log, calls =>
      if cancel i then
        ⟨{ meta with status := RunStatus.cancelled }, log, calls⟩
      else if runKey img ∈ P then
        benchLoop cancel outcome parse P rest (i + 1)
          { meta with processed := meta.processed + 1 } log calls
      else
        match outcome img with
        | .success raw reasoning latency =>
            let parsed := parse raw
            let is_correct : Bool :=
              (parsed == "yes" && img.category == "hot_dog") ||
              (parsed == "no" && img.category == "not_hot_dog")
            let pred : Prediction :=
              { image_path := runKey img, split := img.split, category := img.category,
                filename := img.filename, raw_response := raw,
                reasoning := extractReasoning reasoning raw, parsed := parsed,
                correct := is_correct, latency_ms := round1 latency }
            benchLoop cancel outcome parse P rest (i + 1)
              { meta with
                  processed := meta.processed + 1
                  correct := meta.correct + (if is_correct then 1 else 0)
                  errors := meta.errors + (if parsed == "error" then 1 else 0) }
              (log ++ [pred]) (calls ++ [runKey img])
        | .failure msg =>
            let pred : Prediction :=
              { image_path := runKey img, split := img.split, category := img.category,
                filename := img.filename, raw_response := msg, reasoning := "",
                parsed := "error", correct := false, latency_ms := 0 }
            benchLoop cancel outcome parse P rest (i + 1)
              { meta with
                  processed := meta.processed + 1
                  errors := meta.errors + 1 }
              (log ++ [pred]) (calls ++ [runKey img])

/-- Translation of `_run_benchmark` (test_runner.py, lines 211-318) on the executions
in which no run-level exception strikes: mark the run running, collect
the keys already present in the run log, then drive the loop with an
empty call list. -/
def run_benchmark (cancel : ℕ → Bool) (outcome : Img → Outcome) (parse : String → String)
    (images : List Img) (log0 : List Prediction) (meta0 : RunMeta) : ExecResult :=
  benchLoop cancel outcome parse (log0.map Prediction.image_path) images 0
    { meta0 with status := RunStatus.running } log0 []

/-- A state of the executor seen between status or counter writes: the
remaining queue, the loop-iteration index (at which the cancellation
flag is sampled) and the run snapshot. -/
structure MachineState where
  queue : List Img
  iter : ℕ
  meta : RunMeta
deriving Repr, DecidableEq

/-- The transitions `_run_benchmark` makes on the run snapshot, one
constructor per control path of the source: entry (pending to running,
line 218), the cancellation break (line 235), the already-recorded
skip (lines 239-241), a scored gateway call (lines 246-287), an
absorbed per-image exception (lines 288-302), queue exhaustion (lines
306-308) and a run-level exception escaping the per-image handler
(lines 310-311).  Each path of the source executes only while the run
is pending (entry) or running (everything else), which is why every
constructor carries the corresponding status hypothesis. -/
inductive Step (cancel : ℕ → Bool) (outcome : Img → Outcome) (parse : String → String)
    (P : List String) : MachineState → MachineState → Prop
  | start (s : MachineState) :
      s.meta.status = RunStatus.pending →
      Step cancel outcome parse P s
        ⟨s.queue, s.iter, { s.meta with status := RunStatus.running }⟩
  | cancelled (s : MachineState) (img : Img) (rest : List Img) :
      s.meta.status = RunStatus.running → s.queue = img :: rest →
      cancel s.iter = true →
      Step cancel outcome parse P s
        ⟨s.queue, s.iter, { s.meta with status := RunStatus.cancelled }⟩
  | skip (s : MachineState) (img : Img) (rest : List Img) :
      s.meta.status = RunStatus.running → s.queue = img :: rest →
      cancel s.iter = false → runKey img ∈ P →
      Step cancel outcome parse P s
        ⟨rest, s.iter + 1, { s.meta with processed := s.meta.processed + 1 }⟩
  | classified (s : MachineState) (img : Img) (rest : List Img)
      (raw reasoning : String) (latency : ℚ) :
      s.meta.status = RunStatus.running → s.queue = img :: rest →
      cancel s.iter = false → runKey img ∉ P →
      outcome img = .success raw reasoning latency →
      Step cancel outcome parse P s
        ⟨rest, s.iter + 1,
          { s.meta with
              processed := s.meta.processed + 1
              correct := s.meta.correct +
                (if (parse raw == "yes" && img.category == "hot_dog") ||
                    (parse raw == "no" && img.category == "not_hot_dog") then 1 else 0)
              errors := s.meta.errors + (if parse raw == "error" then 1 else 0) }⟩
  | errored (s : MachineState) (img : Img) (rest : List Img) (msg : String) :
      s.meta.status = RunStatus.running → s.queue = img :: rest →
      cancel s.iter = false → runKey img ∉ P →
      outcome img = .failure msg →
      Step cancel outcome parse P s
        ⟨rest, s.iter + 1,
          { s.meta with
              processed := s.meta.processed + 1
              errors := s.meta.errors + 1 }⟩
  | finished (s : MachineState) :
      s.meta.status = RunStatus.running → s.queue = [] →
      Step cancel outcome parse P s
        ⟨s.queue, s.iter, { s.meta with status := RunStatus.completed }⟩
  | crashed (s : MachineState) :
      s.meta.status = RunStatus.running →
      Step cancel outcome parse P s
        ⟨s.queue, s.iter, { s.meta with status := RunStatus.failed }⟩

/-- A concrete queue row used to instantiate executor theorems. -/
def demoImg : Img :=
  { split := "test", category := "hot_dog", filename := "a.jpg",
    path := "data/test/hot_dog/a.jpg" }

/-- A second concrete queue row with a distinct key. -/
def demoImg2 : Img :=
  { split := "test", category := "not_hot_dog", filename := "b.jpg",
    path := "data/test/not_hot_dog/b.jpg" }

/-- A run-log record for `demoImg`, as a previous process would have
written it. -/
def demoRecord : Prediction :=
  { image_path := "test/hot_dog/a.jpg", split := "test", category := "hot_dog",
    filename := "a.jpg", raw_response := "yes", parsed := "yes", correct := true,
    latency_ms := 100 }

/-- The minimum gap computed from the calls-per-minute budget in
`GlobalRateLimiter.__init__` (backend/services/rate_limiter.py,
line 14): 60 / max_per_minute seconds.  The source fixes the budget at
20 calls per minute. -/
def min_gap (max_per_minute : ℚ) : ℚ := 60 / max_per_minute

/-- The sleep `acquire` performs while holding the lock (rate_limiter.py,
lines 20-23): when less than `gap` has elapsed since `last`, sleep the
remainder, otherwise proceed at once. -/
def sleepFor (gap last now : ℚ) : ℚ := if now - last < gap then gap - (now - last) else 0

/-- One completed acquisition of the limiter: `entry` is the monotonic
clock value read after taking the lock and `record` the new
last-request timestamp written — still under the lock — after the
sleep (rate_limiter.py, line 24). -/
structure Acquire where
  entry : ℚ
  record : ℚ
deriving Repr, DecidableEq

/-- The admissible histories of `GlobalRateLimiter.acquire` starting
from last-request timestamp `last`.  Because the lock serializes the
whole body and the timestamp is written before the lock is released,
each acquisition's clock read happens no earlier than the previous
record (the clock is monotonic), and its record is taken after
sleeping `sleepFor`: these are exactly the two facts the inductive
carries per acquisition. -/
inductive AcquireTrace (gap : ℚ) : ℚ → List Acquire → Prop
  | nil (last : ℚ) : AcquireTrace gap last []
  | cons (last : ℚ) (a : Acquire) (rest : List Acquire) :
      last ≤ a.entry →
      a.entry + sleepFor gap last a.entry ≤ a.record →
      AcquireTrace gap a.record rest →
      AcquireTrace gap last (a :: rest)

/-- The on-disk footprint of one run as `clear_history` sees it: the
run id and the persisted status parsed from its meta snapshot. -/
structure DiskRun where
  run_id : String
  status : RunStatus
deriving Repr, DecidableEq

/-- Translation of `clear_history` (test_runner.py, lines 65-84) over the parseable
meta files on disk: it deletes the three files of every run whose id is
not a key of the in-memory `_active_runs` map and counts it as removed;
the persisted status is never consulted.  The result is the list of
runs kept on disk, untouched, paired with the removed count. -/
def clear_history (active : List String) (disk : List DiskRun) : List DiskRun × ℕ :=
  (disk.filter (fun r => active.contains r.run_id),
   (disk.filter (fun r => !(active.contains r.run_id))).length)

/-- The `ModelInfo` pydantic model (backend/models.py). -/
structure ModelInfo where
  id : String
  name : String
  provider : String
  params : String
deriving Repr, DecidableEq

/-- The `MODELS` table (backend/config.py, lines 17-42). -/
def MODELS : List ModelInfo :=
  [ { id := "nvidia/nemotron-nano-12b-v2-vl:free", name := "NVIDIA Nemotron Nano 12B VL",
      provider := "NVIDIA", params := "12B" },
    { id := "google/gemma-3-27b-it:free", name := "Google Gemma 3 27B",
      provider := "Google", params := "27B" },
    { id := "allenai/molmo-2-8b:free", name := "AllenAI Molmo 2 8B",
      provider := "AllenAI", params := "8B" },
    { id := "google/gemma-3-12b-it:free", name := "Google Gemma 3 12B",
      provider := "Google", params := "12B" } ]

/-- Python `str.title()` on the ASCII strings used here: the first
letter of every alphabetic run is uppercased and the other letters are
lowercased. -/
def pyTitle (s : String) : String :=
  String.mk ((s.data.foldl (fun acc c =>
    if c.isAlpha then
      (acc.1 ++ [if acc.2 then c.toLower else c.toUpper], true)
    else (acc.1 ++ [c], false)) (([] : List Char), false)).1)

/-- Python `str.removesuffix`. -/
def removeSuffix (s suf : String) : String :=
  if suf.data.isSuffixOf s.data then
    String.mk (s.data.take (s.data.length - suf.data.length))
  else s

/-- Leftmost, non-overlapping replacement of `pat` by `rep`, fuelled by
the input length (the fuel is ample: each step consumes at least one
character). -/
def replaceAux (pat rep : List Char) : ℕ → List Char → List Char
  | 0, l => l
  | _ + 1, [] => []
  | fuel + 1, x :: xs =>
      if pat.isPrefixOf (x :: xs) then
        rep ++ replaceAux pat rep fuel ((x :: xs).drop pat.length)
      else x :: replaceAux pat rep fuel xs

/-- Python `str.replace` for a non-empty pattern (the source only
replaces the non-empty literals "ai" and "-"). -/
def pyReplace (s pat rep : String) : String :=
  if pat.data.isEmpty then s
  else String.mk (replaceAux pat.data rep.data s.data.length s.data)

/-- The text before and after the first occurrence of `sep`, when
`sep` occurs. -/
def splitOnceAux (sep : List Char) : List Char → Option (List Char × List Char)
  | [] => none
  | x :: xs =>
      if sep.isPrefixOf (x :: xs) then some ([], (x :: xs).drop sep.length)
      else
        match splitOnceAux sep xs with
        | none => none
        | some (pre, post) => some (x :: pre, post)

/-- Python `s.split(sep, 1)`: at most one split, at the first
occurrence of the separator. -/
def splitOnce (s sep : String) : List String :=
  match splitOnceAux sep.data s.data with
  | none => [s]
  | some (pre, post) => [String.mk pre, String.mk post]

/-- Translation of `get_model_info` (test_runner.py, lines 25-34): look the id up in
`MODELS`; an unknown id is nevertheless accepted — the code's own
comment reads "Accept any model ID — infer name/provider from ID" —
with provider and name inferred from the id, so the `None` arm of the
declared return type `dict | None` is never produced. -/
def get_model_info (model_id : String) : Option ModelInfo :=
  match MODELS.find? (fun m => m.id == model_id) with
  | some m => some m
  | none =>
      let base := removeSuffix model_id ":free"
      let parts := splitOnce base "/"
      let provider :=
        if ¬ parts.headD "" = "" then pyTitle (pyReplace (parts.headD "") "ai" "AI")
        else "Unknown"
      let name :=
        if 1 < parts.length then pyTitle (pyReplace (parts.getD 1 "") "-" " ")
        else model_id
      some { id := model_id, name := name, provider := provider, params := "" }

/-- The validation prologue of `start_run` (test_runner.py, lines
127-129): raise the unknown-model `ValueError` exactly when
`get_model_info` returned `None`, before any run object is created. -/
def start_run_validation (model_id : String) : Except String Unit :=
  match get_model_info model_id with
  | none => Except.error ("Unknown model: " ++ model_id)
  | some _ => Except.ok ()

/-- The model-subset resolution of `start_batch_run` (test_runner.py,
lines 184-194): a missing or empty subset falls back to all configured
models (Python's `if model_ids:` is false for an empty list); otherwise
the ids are resolved through `get_model_info` and the zero-valid-models
`ValueError` is raised when nothing resolved. -/
def resolve_models (model_ids : Option (List String)) : Except String (List ModelInfo) :=
  match model_ids with
  | some ids =>
      if ids.isEmpty then Except.ok MODELS
      else
        let selected := ids.filterMap get_model_info
        if selected.isEmpty then Except.error "No valid models selected"
        else Except.ok selected
  | none => Except.ok MODELS

/-- Claim C3: on the concrete prediction list hot_dog/yes, hot_dog/no,
not_hot_dog/no, not_hot_dog/yes, hot_dog/error, `compute_metrics`
returns TP=1, TN=1, FP=1, FN=1, errors=1, total=5 and accuracy,
precision, recall and F1 all equal to 0.5; in general an error verdict
is excluded from the confusion matrix but tallied separately and
included in total, and precision, recall and F1 are 0 when their
denominators are 0 (the F1 denominator vanishes exactly when TP = 0). -/
theorem claim3_metrics_correctness :
    compute_metrics examplePredictions =
      { accuracy := 1/2, precision := 1/2, recall' := 1/2, f1 := 1/2,
        true_positives := 1, true_negatives := 1, false_positives := 1,
        false_negatives := 1, total := 5, errors := 1 } ∧
    (∀ c p, p.parsed = "error" → confStep c p = { c with errors := c.errors + 1 }) ∧
    (∀ ps, (compute_metrics ps).total =
        (confusion ps).tp + (confusion ps).tn + (confusion ps).fp + (confusion ps).fn +
          (confusion ps).errors ∧
      (compute_metrics ps).errors = (confusion ps).errors) ∧
    (∀ ps, (confusion ps).tp + (confusion ps).fp = 0 → (compute_metrics ps).precision = 0) ∧
    (∀ ps, (confusion ps).tp + (confusion ps).fn = 0 → (compute_metrics ps).recall' = 0) ∧
    (∀ ps, (confusion ps).tp = 0 → (compute_metrics ps).f1 = 0) := by
  refine ⟨?_, ?_, ?_, ?_, ?_, ?_⟩
  · have h : confusion examplePredictions =
        { tp := 1, tn := 1, fp := 1, fn := 1, errors := 1 } := by decide
    simp [compute_metrics, h]
    norm_num [round4, round_eq]
  · intro c p hp
    simp [confStep, hp]
  · intro ps
    exact ⟨rfl, rfl⟩
  · intro ps h
    simp [compute_metrics, h, round4]
  · intro ps h
    simp [compute_metrics, h, round4]
  · intro ps h
    simp only [compute_metrics, h]
    norm_num [round4, round_eq]

/-- Witness for claim C3: the hypothesised conjuncts instantiated at
concrete inputs (an error-verdict prediction, and the empty list whose
confusion counts are all zero). -/
theorem claim3_metrics_correctness_witness :
    confStep { tp := 0, tn := 0, fp := 0, fn := 0, errors := 0 }
        { image_path := "x", split := "s", category := "hot_dog", filename := "f",
          raw_response := "r", parsed := "error", correct := false, latency_ms := 0 } =
      { tp := 0, tn := 0, fp := 0, fn := 0, errors := 1 } ∧
    (compute_metrics []).precision = 0 ∧
    (compute_metrics []).recall' = 0 ∧
    (compute_metrics []).f1 = 0 := by
  refine ⟨claim3_metrics_correctness.2.1 _ _ rfl, ?_, ?_, ?_⟩
  · exact claim3_metrics_correctness.2.2.2.1 [] (by decide)
  · exact claim3_metrics_correctness.2.2.2.2.1 [] (by decide)
  · exact claim3_metrics_correctness.2.2.2.2.2 [] (by decide)

/-- Claim C10: a prediction whose parsed verdict is neither yes nor
error is counted as a negative prediction: it contributes a false
negative when its ground truth is hot_dog and a true negative
otherwise, and its latency is part of the latency sample; concretely, a
single maybe-verdict hot_dog prediction yields FN=1 with no error. -/
theorem claim10_noncanonical_verdict_is_negative :
    (∀ c p, ¬ p.parsed = "yes" → ¬ p.parsed = "error" → p.category = "hot_dog" →
      confStep c p = { c with fn := c.fn + 1 }) ∧
    (∀ c p, ¬ p.parsed = "yes" → ¬ p.parsed = "error" → ¬ p.category = "hot_dog" →
      confStep c p = { c with tn := c.tn + 1 }) ∧
    (∀ ps p, p ∈ ps → ¬ p.parsed = "error" → p.latency_ms ∈ latencySample ps) ∧
    compute_metrics [maybePrediction] =
      { accuracy := 0, precision := 0, recall' := 0, f1 := 0, true_positives := 0,
        true_negatives := 0, false_positives := 0, false_negatives := 1, total := 1,
        errors := 0 } ∧
    latencySample [maybePrediction] = [250] := by
  refine ⟨?_, ?_, ?_, ?_, by decide⟩
  · intro c p hyes herr hcat
    simp [confStep, hyes, herr, hcat]
  · intro c p hyes herr hcat
    simp [confStep, hyes, herr, hcat]
  · intro ps p hp herr
    simp only [latencySample, List.mem_map, List.mem_filter]
    exact ⟨p, ⟨hp, by simp [herr]⟩, rfl⟩
  · have h : confusion [maybePrediction] =
        { tp := 0, tn := 0, fp := 0, fn := 1, errors := 0 } := by decide
    simp [compute_metrics, h]
    norm_num [round4, round_eq]

/-- Witness for claim C10: the hypothesised conjuncts instantiated at
the concrete maybe-verdict prediction. -/
theorem claim10_noncanonical_verdict_is_negative_witness :
    confStep { tp := 0, tn := 0, fp := 0, fn := 0, errors := 0 } maybePrediction =
      { tp := 0, tn := 0, fp := 0, fn := 1, errors := 0 } ∧
    confStep { tp := 0, tn := 0, fp := 0, fn := 0, errors := 0 }
        { maybePrediction with category := "not_hot_dog" } =
      { tp := 0, tn := 1, fp := 0, fn := 0, errors := 0 } ∧
    (250 : ℚ) ∈ latencySample [maybePrediction] := by
  refine ⟨?_, ?_, ?_⟩
  · exact claim10_noncanonical_verdict_is_negative.1 _ _ (by decide) (by decide) rfl
  · exact claim10_noncanonical_verdict_is_negative.2.1 _ _ (by decide) (by decide) (by decide)
  · exact claim10_noncanonical_verdict_is_negative.2.2.1 [maybePrediction]
      maybePrediction (by decide) (by decide)

/-- The exact value of the Wilson interval at successes 1, total 4,
z 1.96: the code returns (0.0456, 0.6994). -/
lemma wilson_ci_one_four : wilson_ci 1 4 1.96 = (0.0456, 0.6994) := by
  simp only [wilson_ci]
  norm_num
  set s : ℝ := Real.sqrt 1069 / Real.sqrt 10000 with hs
  have hs0 : 0 ≤ s := by
    rw [hs]; positivity
  have hssq : s ^ 2 = 1069 / 10000 := by
    rw [hs, div_pow, Real.sq_sqrt (by norm_num), Real.sq_sqrt (by norm_num)]
  have h1 : (32695 : ℝ)/100000 ≤ s := by
    nlinarith [hssq, hs0, sq_nonneg (s - 32695/100000), sq_nonneg (s + 32695/100000)]
  have h2 : s ≤ (32699 : ℝ)/100000 := by
    nlinarith [hssq, hs0, sq_nonneg (s - 32699/100000), sq_nonneg (s + 32699/100000)]
  constructor
  · rw [sup_eq_right.mpr (by linarith : (0:ℝ) ≤ (3651 / 5000 - 49 / 25 * s) / (4901 / 2500))]
    have hr : round (((3651 / 5000 - 49 / 25 * s) / (4901 / 2500)) * 10000) = (456 : ℤ) := by
      rw [round_eq]
      refine Int.floor_eq_iff.mpr ⟨by push_cast; linarith, by push_cast; linarith⟩
    rw [round4R, hr]
    norm_num
  · rw [inf_eq_right.mpr (by linarith : (3651 / 5000 + 49 / 25 * s) / (4901 / 2500) ≤ 1)]
    have hr : round (((3651 / 5000 + 49 / 25 * s) / (4901 / 2500)) * 10000) = (6994 : ℤ) := by
      rw [round_eq]
      refine Int.floor_eq_iff.mpr ⟨by push_cast; linarith, by push_cast; linarith⟩
    rw [round4R, hr]
    norm_num

/-- Counterexample to claim C4 as stated: at successes 1, total 4,
z 1.96 the code's interval is not within 0.001 of (0.0545, 0.7566) on
each endpoint (it is (0.0456, 0.6994)). -/
theorem claim4_wilson_ci_counterexample :
    ¬ (|(wilson_ci 1 4 1.96).1 - 0.0545| ≤ 0.001 ∧
       |(wilson_ci 1 4 1.96).2 - 0.7566| ≤ 0.001) := by
  rw [wilson_ci_one_four]
  norm_num [abs_le]

/-- Claim C4 amended: the Wilson score interval computed for
successes 1, total 4, z 1.96 is exactly (0.0456, 0.6994) — hence within
a tolerance of 0.001 of (0.0456, 0.6994) on each endpoint — and for
total 0 the interval is (0, 0). -/
theorem claim4_wilson_ci_amended :
    wilson_ci 1 4 1.96 = (0.0456, 0.6994) ∧
    (|(wilson_ci 1 4 1.96).1 - 0.0456| ≤ 0.001 ∧
     |(wilson_ci 1 4 1.96).2 - 0.6994| ≤ 0.001) ∧
    (∀ successes z, wilson_ci successes 0 z = (0, 0)) := by
  refine ⟨wilson_ci_one_four, ?_, ?_⟩
  · rw [wilson_ci_one_four]
    norm_num
  · intro successes z
    simp [wilson_ci]

/-- When the flag never cancels, a block of images whose keys are all
already recorded is skipped wholesale: the loop just advances the
iteration index and the processed counter by the block length. -/
lemma benchLoop_skip_all (cancel : ℕ → Bool) (outcome : Img → Outcome)
    (parse : String → String) (P : List String) (hc : ∀ j, cancel j = false)
    (l1 : List Img) (h1 : ∀ img ∈ l1, runKey img ∈ P) (l2 : List Img) :
    ∀ (i : ℕ) (meta : RunMeta) (log : List Prediction) (calls : List String),
      benchLoop cancel outcome parse P (l1 ++ l2) i meta log calls =
        benchLoop cancel outcome parse P l2 (i + l1.length)
          { meta with processed := meta.processed + l1.length } log calls := by
  induction l1 with
  | nil => intro i meta log calls; simp
  | cons img l1 ih =>
      intro i meta log calls
      have hmem : runKey img ∈ P := h1 img (by simp)
      have hrest : ∀ x ∈ l1, runKey x ∈ P := fun x hx => h1 x (by simp [hx])
      simp only [List.cons_append, benchLoop, hc i, Bool.false_eq_true, if_false, hmem, if_true,
        List.append_eq]
      rw [ih hrest (i + 1) _ log calls]
      have e1 : i + 1 + l1.length = i + (l1.length + 1) := by omega
      have e2 : meta.processed + 1 + l1.length = meta.processed + (l1.length + 1) := by omega
      simp [e1, e2, List.length_cons]

/-- When the flag never cancels, a block of images none of whose keys
is recorded appends exactly one record per image, in queue order, and
issues exactly one call per image. -/
lemma benchLoop_fresh_all (cancel : ℕ → Bool) (outcome : Img → Outcome)
    (parse : String → String) (P : List String) (hc : ∀ j, cancel j = false)
    (l2 : List Img) (h2 : ∀ img ∈ l2, ¬ runKey img ∈ P) :
    ∀ (i : ℕ) (meta : RunMeta) (log : List Prediction) (calls : List String),
      (benchLoop cancel outcome parse P l2 i meta log calls).log.map Prediction.image_path =
          log.map Prediction.image_path ++ l2.map runKey ∧
      (benchLoop cancel outcome parse P l2 i meta log calls).calls =
          calls ++ l2.map runKey ∧
      (benchLoop cancel outcome parse P l2 i meta log calls).meta.processed =
          meta.processed + l2.length := by
  induction l2 with
  | nil =>
      intro i meta log calls
      refine ⟨by simp [benchLoop], by simp [benchLoop], ?_⟩
      simp only [benchLoop]
      split <;> simp
  | cons img l2 ih =>
      intro i meta log calls
      have hmem : ¬ runKey img ∈ P := h2 img (by simp)
      have hrest : ∀ x ∈ l2, ¬ runKey x ∈ P := fun x hx => h2 x (by simp [hx])
      cases ho : outcome img with
      | success raw reasoning latency =>
          simp only [benchLoop, hc i, Bool.false_eq_true, if_false, hmem, if_true, ho]
          obtain ⟨ha, hb, hd⟩ := ih hrest (i + 1) _ _ _
          refine ⟨?_, ?_, ?_⟩
          · rw [ha]; simp
          · rw [hb]; simp
          · rw [hd]; simp; omega
      | failure msg =>
          simp only [benchLoop, hc i, Bool.false_eq_true, if_false, hmem, if_true, ho]
          obtain ⟨ha, hb, hd⟩ := ih hrest (i + 1) _ _ _
          refine ⟨?_, ?_, ?_⟩
          · rw [ha]; simp
          · rw [hb]; simp
          · rw [hd]; simp; omega

/-- Claim C1: on a restart over an image list with pairwise-distinct
keys, given a run log already holding records for a prefix of those
images and no cancellation, the executor issues no classifier call for
any already-recorded key (each such image is counted as processed and
skipped), and the final run log holds exactly one record per image
key — its key sequence equals the image key sequence and is free of
duplicates — with every image, skipped or fresh, counted in
processed. -/
theorem claim1_resumability_idempotence
    (cancel : ℕ → Bool) (outcome : Img → Outcome) (parse : String → String)
    (images : List Img) (log0 : List Prediction) (meta0 : RunMeta) (k : ℕ)
    (hc : ∀ i, cancel i = false)
    (hnd : (images.map runKey).Nodup)
    (hlog : log0.map Prediction.image_path = (images.take k).map runKey) :
    (∀ key ∈ (run_benchmark cancel outcome parse images log0 meta0).calls,
        ¬ key ∈ log0.map Prediction.image_path) ∧
    (run_benchmark cancel outcome parse images log0 meta0).log.map Prediction.image_path =
        images.map runKey ∧
    ((run_benchmark cancel outcome parse images log0 meta0).log.map Prediction.image_path).Nodup ∧
    (run_benchmark cancel outcome parse images log0 meta0).meta.processed =
        meta0.processed + images.length := by
  have hsplit : images.take k ++ images.drop k = images := List.take_append_drop k images
  have hmapsplit : (images.take k).map runKey ++ (images.drop k).map runKey =
      images.map runKey := by
    rw [← List.map_append, hsplit]
  have hnd2 : ((images.take k).map runKey ++ (images.drop k).map runKey).Nodup := by
    rw [hmapsplit]; exact hnd
  have hdisj := List.disjoint_of_nodup_append hnd2
  have h1 : ∀ img ∈ images.take k, runKey img ∈ log0.map Prediction.image_path := by
    intro img him
    rw [hlog]
    exact List.mem_map_of_mem runKey him
  have h2 : ∀ img ∈ images.drop k, ¬ runKey img ∈ log0.map Prediction.image_path := by
    intro img him hmem
    rw [hlog] at hmem
    exact hdisj hmem (List.mem_map_of_mem runKey him)
  have hrun : run_benchmark cancel outcome parse images log0 meta0 =
      benchLoop cancel outcome parse (log0.map Prediction.image_path)
        (images.take k ++ images.drop k) 0 { meta0 with status := RunStatus.running }
        log0 [] := by
    rw [run_benchmark, hsplit]
  rw [hrun, benchLoop_skip_all cancel outcome parse _ hc _ h1 _ 0 _ log0 []]
  obtain ⟨ha, hb, hd⟩ := benchLoop_fresh_all cancel outcome parse _ hc _ h2
    (0 + (images.take k).length)
    { { meta0 with status := RunStatus.running } with
        processed := { meta0 with status := RunStatus.running }.processed +
          (images.take k).length }
    log0 []
  refine ⟨?_, ?_, ?_, ?_⟩
  · intro key hkey
    rw [hb] at hkey
    simp only [List.nil_append] at hkey
    obtain ⟨img, him, rfl⟩ := List.mem_map.mp hkey
    exact h2 img him
  · rw [ha, hlog, hmapsplit]
  · rw [ha, hlog, hmapsplit]; exact hnd
  · rw [hd]
    simp only [List.length_take, List.length_drop]
    omega

/-- Witness for claim C1: a two-image queue with distinct keys whose
first image is already recorded; the restarted executor calls the
gateway only for the second image, ends with one record per key, and
counts both images as processed. -/
theorem claim1_resumability_idempotence_witness :
    (run_benchmark (fun _ => false) (fun _ => Outcome.failure "boom") id
        [demoImg, demoImg2] [demoRecord] (initMeta [demoImg, demoImg2])).log.map
          Prediction.image_path = [demoImg, demoImg2].map runKey ∧
    (run_benchmark (fun _ => false) (fun _ => Outcome.failure "boom") id
        [demoImg, demoImg2] [demoRecord] (initMeta [demoImg, demoImg2])).meta.processed =
      (initMeta [demoImg, demoImg2]).processed + 2 := by
  have h := claim1_resumability_idempotence (fun _ => false)
    (fun _ => Outcome.failure "boom") id [demoImg, demoImg2] [demoRecord]
    (initMeta [demoImg, demoImg2]) 1 (fun _ => rfl) (by decide) (by decide)
  exact ⟨h.2.1, h.2.2.2⟩

/-- One step of the executor preserves the strengthened run
invariant: the processed counter plus the remaining queue never
exceeds the total, and correct plus errors never exceeds processed. -/
lemma step_preserves_inv (cancel : ℕ → Bool) (outcome : Img → Outcome)
    (parse : String → String) (P : List String) (s t : MachineState)
    (h : Step cancel outcome parse P s t)
    (hinv : s.meta.processed + s.queue.length ≤ s.meta.total_images ∧
            s.meta.correct + s.meta.errors ≤ s.meta.processed) :
    t.meta.processed + t.queue.length ≤ t.meta.total_images ∧
    t.meta.correct + t.meta.errors ≤ t.meta.processed := by
  obtain ⟨h1, h2⟩ := hinv
  cases h with
  | start hp => exact ⟨h1, h2⟩
  | cancelled img rest hs hq hcan => exact ⟨h1, h2⟩
  | skip img rest hs hq hcan hp =>
      rw [hq] at h1
      simp only [List.length_cons] at h1
      constructor <;> dsimp only <;> omega
  | classified img rest raw reasoning latency hs hq hcan hp ho =>
      rw [hq] at h1
      simp only [List.length_cons] at h1
      have hone :
          (if (parse raw == "yes" && img.category == "hot_dog") ||
              (parse raw == "no" && img.category == "not_hot_dog") then 1 else 0) +
            (if parse raw == "error" then 1 else 0) ≤ 1 := by
        by_cases he : parse raw = "error"
        · simp [he]
        · simp only [beq_eq_false_iff_ne.mpr he, if_false]
          split <;> simp
      constructor <;> dsimp only <;> omega
  | errored img rest msg hs hq hcan hp ho =>
      rw [hq] at h1
      simp only [List.length_cons] at h1
      constructor <;> dsimp only <;> omega
  | finished hs hq => exact ⟨h1, h2⟩
  | crashed hs => exact ⟨h1, h2⟩

/-- Claim C2: no transition of the executor leaves a terminal status
(every control path runs from a pending or running state only); the
counters processed, correct and errors never decrease across a step;
and every state the executor can reach from the snapshot `start_run`
creates satisfies both processed less-or-equal total_images and
correct plus errors less-or-equal processed. -/
theorem claim2_run_state_machine
    (cancel : ℕ → Bool) (outcome : Img → Outcome) (parse : String → String)
    (P : List String) (images : List Img) :
    (∀ s t, Step cancel outcome parse P s t → s.meta.status.isTerminal = false) ∧
    (∀ s t, Step cancel outcome parse P s t →
        s.meta.processed ≤ t.meta.processed ∧ s.meta.correct ≤ t.meta.correct ∧
        s.meta.errors ≤ t.meta.errors) ∧
    (∀ s, Relation.ReflTransGen (Step cancel outcome parse P)
        ⟨images, 0, initMeta images⟩ s →
      s.meta.processed ≤ s.meta.total_images ∧
      s.meta.correct + s.meta.errors ≤ s.meta.processed) := by
  refine ⟨?_, ?_, ?_⟩
  · intro s t h
    cases h with
    | start hp => rw [hp]; rfl
    | cancelled img rest hs hq hcan => rw [hs]; rfl
    | skip img rest hs hq hcan hp => rw [hs]; rfl
    | classified img rest raw reasoning latency hs hq hcan hp ho => rw [hs]; rfl
    | errored img rest msg hs hq hcan hp ho => rw [hs]; rfl
    | finished hs hq => rw [hs]; rfl
    | crashed hs => rw [hs]; rfl
  · intro s t h
    cases h <;> refine ⟨?_, ?_, ?_⟩ <;> dsimp only <;> omega
  · intro s hr
    have hinv : s.meta.processed + s.queue.length ≤ s.meta.total_images ∧
        s.meta.correct + s.meta.errors ≤ s.meta.processed := by
      induction hr with
      | refl => exact ⟨by simp [initMeta], by simp [initMeta]⟩
      | tail hab hbc ih => exact step_preserves_inv cancel outcome parse P _ _ hbc ih
    omega

/-- Witness for claim C2: the three conjuncts instantiated at a
one-image run — terminality and monotonicity at the concrete pending
to running entry step, and the invariant at the reachable initial
state itself. -/
theorem claim2_run_state_machine_witness :
    (⟨[demoImg], 0, initMeta [demoImg]⟩ : MachineState).meta.status.isTerminal = false ∧
    (initMeta [demoImg]).processed ≤ (initMeta [demoImg]).total_images ∧
    (initMeta [demoImg]).correct + (initMeta [demoImg]).errors ≤
      (initMeta [demoImg]).processed := by
  have hstep : Step (fun _ => false) (fun _ => Outcome.failure "boom") id []
      ⟨[demoImg], 0, initMeta [demoImg]⟩
      ⟨[demoImg], 0, { initMeta [demoImg] with status := RunStatus.running }⟩ :=
    Step.start _ rfl
  have h := claim2_run_state_machine (fun _ => false) (fun _ => Outcome.failure "boom") id
    [] [demoImg]
  refine ⟨h.1 _ _ hstep, ?_, ?_⟩
  · exact (h.2.2 _ Relation.ReflTransGen.refl).1
  · exact (h.2.2 _ Relation.ReflTransGen.refl).2

/-- Claim C5: when the gateway call for a not-yet-recorded image
raises, the executor appends a record carrying the exception message
as raw text, verdict error, correctness false and zero latency,
increments processed and errors, leaves the status untouched (in
particular it does not set failed), and continues the loop on the
remaining images. -/
theorem claim5_per_image_error_absorption
    (cancel : ℕ → Bool) (outcome : Img → Outcome) (parse : String → String)
    (P : List String) (img : Img) (rest : List Img) (i : ℕ) (meta : RunMeta)
    (log : List Prediction) (calls : List String) (msg : String)
    (hc : cancel i = false) (hp : ¬ runKey img ∈ P)
    (ho : outcome img = Outcome.failure msg) :
    benchLoop cancel outcome parse P (img :: rest) i meta log calls =
      benchLoop cancel outcome parse P rest (i + 1)
        { meta with processed := meta.processed + 1, errors := meta.errors + 1 }
        (log ++ [{ image_path := runKey img, split := img.split, category := img.category,
                   filename := img.filename, raw_response := msg, reasoning := "",
                   parsed := "error", correct := false, latency_ms := 0 }])
        (calls ++ [runKey img]) ∧
    RunMeta.status { meta with processed := meta.processed + 1, errors := meta.errors + 1 }
      = meta.status :=
  ⟨by simp [benchLoop, hc, hp, ho], rfl⟩

/-- Witness for claim C5: a concrete one-image run whose gateway call
raises; after the absorbed error the run completes with the error
record in the log and both counters at one. -/
theorem claim5_per_image_error_absorption_witness :
    (benchLoop (fun _ => false) (fun _ => Outcome.failure "boom") id []
        [demoImg] 0 { status := RunStatus.running, total_images := 1 } [] []).log =
      [{ image_path := runKey demoImg, split := demoImg.split, category := demoImg.category,
         filename := demoImg.filename, raw_response := "boom", reasoning := "",
         parsed := "error", correct := false, latency_ms := 0 }] ∧
    (benchLoop (fun _ => false) (fun _ => Outcome.failure "boom") id []
        [demoImg] 0 { status := RunStatus.running, total_images := 1 } [] []).meta =
      { status := RunStatus.completed, total_images := 1, processed := 1, correct := 0,
        errors := 1 } := by
  have h := (claim5_per_image_error_absorption (fun _ => false)
    (fun _ => Outcome.failure "boom") id [] demoImg [] 0
    { status := RunStatus.running, total_images := 1 } [] [] "boom"
    rfl (by simp) rfl).1
  rw [h]
  exact ⟨by decide, by decide⟩

/-- Counterexample to claim C9 as stated: with the cancellation flag
set and a single already-recorded image, the executor does consult the
flag first — the run ends cancelled and the recorded image is not
counted as processed, where the claim requires it to be counted as
processed (one) without the flag being consulted. -/
theorem claim9_cancellation_check_counterexample :
    (run_benchmark (fun _ => true) (fun _ => Outcome.failure "unused") id
        [demoImg] [demoRecord] (initMeta [demoImg])).meta.status = RunStatus.cancelled ∧
    ¬ (run_benchmark (fun _ => true) (fun _ => Outcome.failure "unused") id
        [demoImg] [demoRecord] (initMeta [demoImg])).meta.processed = 1 := by
  decide

/-- Claim C9 amended: for each image in order the executor checks the
cancellation flag first — also for already-recorded images — and when
the flag is set it stops at once and marks the run cancelled, touching
neither the log nor the counters; only when the flag is unset and the
image is already recorded is it counted as processed and skipped
without a classifier call. -/
theorem claim9_cancellation_checked_first_amended :
    (∀ (cancel : ℕ → Bool) (outcome : Img → Outcome) (parse : String → String)
        (P : List String) (img : Img) (rest : List Img) (i : ℕ) (meta : RunMeta)
        (log : List Prediction) (calls : List String),
      cancel i = true →
        benchLoop cancel outcome parse P (img :: rest) i meta log calls =
          ⟨{ meta with status := RunStatus.cancelled }, log, calls⟩) ∧
    (∀ (cancel : ℕ → Bool) (outcome : Img → Outcome) (parse : String → String)
        (P : List String) (img : Img) (rest : List Img) (i : ℕ) (meta : RunMeta)
        (log : List Prediction) (calls : List String),
      cancel i = false → runKey img ∈ P →
        benchLoop cancel outcome parse P (img :: rest) i meta log calls =
          benchLoop cancel outcome parse P rest (i + 1)
            { meta with processed := meta.processed + 1 } log calls) := by
  constructor
  · intro cancel outcome parse P img rest i meta log calls h
    simp [benchLoop, h]
  · intro cancel outcome parse P img rest i meta log calls h hp
    simp [benchLoop, h, hp]

/-- Witness for claim C9 amended: both conjuncts instantiated at the
one-image queue whose image is already recorded — with the flag set
the loop stops cancelled; with the flag unset it skips and counts. -/
theorem claim9_cancellation_checked_first_amended_witness :
    benchLoop (fun _ => true) (fun _ => Outcome.failure "unused") id
        [runKey demoImg] [demoImg] 0 (initMeta [demoImg]) [demoRecord] [] =
      ⟨{ initMeta [demoImg] with status := RunStatus.cancelled }, [demoRecord], []⟩ ∧
    benchLoop (fun _ => false) (fun _ => Outcome.failure "unused") id
        [runKey demoImg] [demoImg] 0 (initMeta [demoImg]) [demoRecord] [] =
      benchLoop (fun _ => false) (fun _ => Outcome.failure "unused") id
        [runKey demoImg] [] 1
        { initMeta [demoImg] with processed := (initMeta [demoImg]).processed + 1 }
        [demoRecord] [] := by
  constructor
  · exact claim9_cancellation_checked_first_amended.1 (fun _ => true)
      (fun _ => Outcome.failure "unused") id [runKey demoImg] demoImg [] 0
      (initMeta [demoImg]) [demoRecord] [] rfl
  · exact claim9_cancellation_checked_first_amended.2 (fun _ => false)
      (fun _ => Outcome.failure "unused") id [runKey demoImg] demoImg [] 0
      (initMeta [demoImg]) [demoRecord] [] rfl (by simp)

/-- The first acquisition of a valid trace records a timestamp at
least one gap after the previous recorded timestamp. -/
lemma acquireTrace_head (gap last : ℚ) (a : Acquire) (rest : List Acquire)
    (h : AcquireTrace gap last (a :: rest)) : last + gap ≤ a.record := by
  cases h with
  | cons _ _ _ h1 h2 h3 =>
      unfold sleepFor at h2
      split at h2 <;> linarith

/-- Consecutive acquisitions of a valid trace are at least one gap
apart in recorded timestamps. -/
lemma acquireTrace_consecutive (gap last : ℚ) (tr : List Acquire)
    (h : AcquireTrace gap last tr) :
    ∀ (i : ℕ) (hi : i + 1 < tr.length),
      (tr.get ⟨i, by omega⟩).record + gap ≤ (tr.get ⟨i + 1, hi⟩).record := by
  induction h with
  | nil last => intro i hi; simp at hi
  | cons last a rest h1 h2 h3 ih =>
      intro i hi
      cases i with
      | zero =>
          cases rest with
          | nil => simp at hi
          | cons b rest2 =>
              have hb := acquireTrace_head gap a.record b rest2 h3
              simpa using hb
      | succ j =>
          have hj : j + 1 < rest.length := by simpa using hi
          simpa using ih j hj

/-- Claim C6: in any serialized history of the global limiter the
recorded timestamp of each acquisition is at least 60 divided by the
calls-per-minute budget after the previous recorded timestamp — for
any number of interleaved callers, since the lock serializes the
read-sleep-write body and the timestamp is written before the lock is
released (both encoded in `AcquireTrace`) — and acquiring never
fails: from any state a sleep of `sleepFor` always yields an
admissible acquisition. -/
theorem claim6_rate_limiter_min_gap (max_per_minute last : ℚ) (tr : List Acquire)
    (h : AcquireTrace (min_gap max_per_minute) last tr) :
    (∀ (i : ℕ) (hi : i + 1 < tr.length),
        (tr.get ⟨i, by omega⟩).record + min_gap max_per_minute ≤
          (tr.get ⟨i + 1, hi⟩).record) ∧
    (∀ l e : ℚ, l ≤ e →
        AcquireTrace (min_gap max_per_minute) l
          [⟨e, e + sleepFor (min_gap max_per_minute) l e⟩]) := by
  constructor
  · exact acquireTrace_consecutive _ last tr h
  · intro l e hle
    exact AcquireTrace.cons l ⟨e, _⟩ [] hle le_rfl (AcquireTrace.nil _)

/-- Witness for claim C6: with the configured budget of 20 calls per
minute (gap 3 seconds), the concrete two-acquisition trace recording
timestamps 3 and 6 is admissible and its consecutive records are 3
apart. -/
theorem claim6_rate_limiter_min_gap_witness :
    (([⟨0, 3⟩, ⟨3, 6⟩] : List Acquire).get ⟨0, by norm_num⟩).record + min_gap 20 ≤
      (([⟨0, 3⟩, ⟨3, 6⟩] : List Acquire).get ⟨1, by norm_num⟩).record := by
  have hg : min_gap 20 = 3 := by norm_num [min_gap]
  have htr : AcquireTrace (min_gap 20) 0 [⟨0, 3⟩, ⟨3, 6⟩] := by
    rw [hg]
    refine AcquireTrace.cons 0 ⟨0, 3⟩ _ le_rfl ?_
      (AcquireTrace.cons 3 ⟨3, 6⟩ _ le_rfl ?_ (AcquireTrace.nil _))
    · norm_num [sleepFor]
    · norm_num [sleepFor]
  exact (claim6_rate_limiter_min_gap 20 0 _ htr).1 0 (by norm_num)

/-- Claim C7 evaluated against the code at its failing input: a disk
state holding one run whose persisted status is running, with the
in-memory active map empty (as after a process restart).
`clear_history` deletes that run's files — it is removed from disk and
counted — although running is not a terminal status, because the code
only checks membership in the active map and never consults the
persisted status, contradicting its own docstring ("Delete all
completed/failed/cancelled run files"). -/
theorem claim7_clear_history_deletes_nonterminal :
    (clear_history [] [{ run_id := "r1", status := RunStatus.running }]).1 = [] ∧
    (clear_history [] [{ run_id := "r1", status := RunStatus.running }]).2 = 1 ∧
    RunStatus.isTerminal RunStatus.running = false := by
  decide

/-- Counterexample to claim C8 as stated: the unknown model identifier
acme/mystery-model does not fail validation — `get_model_info` infers
a name and provider for it, `start_run`'s validation passes, and a
batch whose requested subset is exactly this unknown id resolves to
one model instead of raising the zero-valid-models error. -/
theorem claim8_input_validation_counterexample :
    get_model_info "acme/mystery-model" =
      some { id := "acme/mystery-model", name := "Mystery Model", provider := "Acme",
             params := "" } ∧
    start_run_validation "acme/mystery-model" = Except.ok () ∧
    resolve_models (some ["acme/mystery-model"]) =
      Except.ok [{ id := "acme/mystery-model", name := "Mystery Model",
                   provider := "Acme", params := "" }] :=
  ⟨rfl, rfl, rfl⟩

/-- Claim C8 amended: the code accepts every model identifier —
`get_model_info` returns inferred model info for ids outside `MODELS`,
so `start_run` never raises the unknown-model error; and
`start_batch_run` never raises the zero-valid-models error, since a
non-empty requested subset always resolves to as many models and an
empty or missing subset falls back to all configured models. -/
theorem claim8_input_validation_amended :
    (∀ model_id, (get_model_info model_id).isSome = true) ∧
    (∀ model_id, start_run_validation model_id = Except.ok ()) ∧
    (∀ ids, ∃ ms, resolve_models ids = Except.ok ms) := by
  have hsome : ∀ model_id, ∃ m, get_model_info model_id = some m := by
    intro mid
    unfold get_model_info
    cases h : MODELS.find? (fun m => m.id == mid) with
    | none => exact ⟨_, rfl⟩
    | some m => exact ⟨m, rfl⟩
  refine ⟨?_, ?_, ?_⟩
  · intro mid
    obtain ⟨m, hm⟩ := hsome mid
    simp [hm]
  · intro mid
    obtain ⟨m, hm⟩ := hsome mid
    simp [start_run_validation, hm]
  · intro ids
    match ids with
    | none => exact ⟨MODELS, rfl⟩
    | some [] => exact ⟨MODELS, rfl⟩
    | some (x :: xs) =>
        obtain ⟨m, hm⟩ := hsome x
        refine ⟨m :: xs.filterMap get_model_info, ?_⟩
        simp [resolve_models, List.filterMap_cons, hm]

end HotDog
